import Mathlib

/-!
Verification development for the jefit client (`src/jefit/client.py`).

The repository has one source file with two logical units:

* `parse_to_lifting_log` (the Log-Line Parser): scans a text blob with the
  regular expression `Set (\d+) : (\d+)x(\d+)` via `re.findall`, producing one
  `LiftingLog` record per non-overlapping match, in input order.

* `JEFITClient.get_workout_from_date` (the Workout Extractor): performs one
  HTTP GET, raises on an error status, parses the response as HTML, locates
  the element with id `logList1`, walks its `exercise-block` divs, asserts
  each holds exactly four `fixedLogBarBlock align-top` divs inside a
  `fixedLogBar` div, and builds one `ExerciseBlock` per exercise.

The shallow embedding below models:
  - ASCII decimal strings and Python `int`-of-digit-string conversion;
  - the specific regex above, with `re.findall` scan semantics (leftmost,
    non-overlapping, advancing one character on failure) — a fuel-indexed
    structural recursion with fuel bounded by the input length, which is
    shown sufficient;
  - an HTML node tree with the few BeautifulSoup operations the code uses
    (`find(id=...)`, `find`/`findAll` by tag and class, `get_text`, with
    pre-order document-order traversal and bs4's string class matching);
  - Python `float()` on simple numeric strings as an exact rational;
  - the exception outcomes (`HTTPStatusError` from `raise_for_status`,
    `AttributeError` from calling a method on `None`, `AssertionError` from
    the four-block assert, `ValueError` from `float()`), with `Except`.

Numeric fields use `Int`/`ℚ` for Python's `int`/`float`; the digit strings
captured by the regex are small enough in practice that `float` conversion is
exact, so `ℚ` is used for weights and one-rep maxes.
-/

/-- Python `int` value of a list of ASCII digit characters (also the value
pydantic assigns when coercing a captured digit string to `int`). -/
def digitsVal (ds : List Char) : Nat :=
  ds.foldl (fun a c => 10 * a + (c.toNat - 48)) 0

/-- One decimal digit character, for rendering token numerals. -/
def digitChar10 (d : Nat) : Char :=
  match d with
  | 0 => '0' | 1 => '1' | 2 => '2' | 3 => '3' | 4 => '4'
  | 5 => '5' | 6 => '6' | 7 => '7' | 8 => '8' | _ => '9'

/-- Decimal rendering of a natural number as a character list. -/
def natChars (n : Nat) : List Char :=
  if _h : n < 10 then [digitChar10 n]
  else natChars (n / 10) ++ [digitChar10 (n % 10)]
decreasing_by exact Nat.div_lt_self (by omega) (by omega)

/-- Strip a literal character sequence from the front of the input, returning
the remainder; models matching a literal part of the regular expression. -/
def dropLit : List Char → List Char → Option (List Char)
  | [], cs => some cs
  | _ :: _, [] => none
  | p :: ps, c :: cs => if p = c then dropLit ps cs else none

/-- The literal part `Set ` of the regex. -/
def setLit : List Char := ['S', 'e', 't', ' ']

/-- The literal separator ` : ` of the regex. -/
def sepLit : List Char := [' ', ':', ' ']

/-- Attempt to match the regex `Set (\d+) : (\d+)x(\d+)` at the start of the
input.  Returns the three captured integers and the unconsumed remainder.
Greedy maximal digit runs coincide with Python's backtracking semantics here
because each `\d+` is followed by a non-digit literal (or end of pattern). -/
def matchAt (cs : List Char) : Option ((Nat × Nat × Nat) × List Char) :=
  match dropLit setLit cs with
  | none => none
  | some r1 =>
    if (r1.takeWhile Char.isDigit).isEmpty then none else
    match dropLit sepLit (r1.dropWhile Char.isDigit) with
    | none => none
    | some r3 =>
      if (r3.takeWhile Char.isDigit).isEmpty then none else
      match r3.dropWhile Char.isDigit with
      | 'x' :: r5 =>
        if (r5.takeWhile Char.isDigit).isEmpty then none else
        some ((digitsVal (r1.takeWhile Char.isDigit),
               digitsVal (r3.takeWhile Char.isDigit),
               digitsVal (r5.takeWhile Char.isDigit)),
              r5.dropWhile Char.isDigit)
      | _ => none

/-- Scan for all non-overlapping matches, leftmost first, advancing one
character when no match starts at the current position — the semantics of
`re.findall`.  Fuel-indexed so the definition is structural; each successful
match consumes at least one character, so fuel equal to the input length is
enough (proved below). -/
def findAllFuel : Nat → List Char → List (Nat × Nat × Nat)
  | 0, _ => []
  | _, [] => []
  | fuel + 1, c :: cs =>
    match matchAt (c :: cs) with
    | some (t, rest) => t :: findAllFuel fuel rest
    | none => findAllFuel fuel cs

/-- All matches of `Set (\d+) : (\d+)x(\d+)` in the input, in input order:
the model of `pattern.findall(liftinglogs)` at `client.py:95-96`. -/
def findAllMatches (cs : List Char) : List (Nat × Nat × Nat) :=
  findAllFuel cs.length cs

/-- Model of the pydantic `LiftingLog` record (`client.py:17-28`):
`set_number : int`, `weight : float`, `reps : int`. -/
structure LiftingLog where
  set_number : Int
  weight : ℚ
  reps : Int
deriving DecidableEq, Repr

/-- Model of the pydantic `ExerciseBlock` record (`client.py:30-41`). -/
structure ExerciseBlock where
  exercise_name : String
  one_rep_max : ℚ
  lifting_logs : List LiftingLog
deriving DecidableEq, Repr

/-- Model of `parse_to_lifting_log` (`client.py:85-96`): find every match of
`Set (\d+) : (\d+)x(\d+)` and build one `LiftingLog` from the three captured
groups, in input order. -/
def parse_to_lifting_log (liftinglogs : String) : List LiftingLog :=
  (findAllMatches liftinglogs.data).map
    (fun t => { set_number := (t.1 : Int), weight := (t.2.1 : ℚ), reps := (t.2.2 : Int) })

/-- An HTML node as BeautifulSoup exposes it to this client: an element with
a tag name, an optional `id` attribute, a (possibly empty) list of CSS
classes, and children in document order; or a text node. -/
inductive HNode where
  | elem (tag : String) (idAttr : Option String) (classes : List String) (children : List HNode)
  | text (s : String)

mutual

/-- All strict descendants of a node in document (pre-) order: the search
space of bs4's `find`/`findAll` called on that node. -/
def nodeList : HNode → List HNode
  | .text _ => []
  | .elem _ _ _ cs => forestList cs

/-- Document-order listing of a forest: each root followed by its strict
descendants, then its later siblings. -/
def forestList : List HNode → List HNode
  | [] => []
  | n :: ns => n :: nodeList n ++ forestList ns

end

mutual

/-- Model of bs4 `get_text()`: concatenation of all text descendants in
document order. -/
def getText : HNode → String
  | .text s => s
  | .elem _ _ _ cs => forestText cs

/-- Concatenated text of a forest, in document order. -/
def forestText : List HNode → String
  | [] => ""
  | n :: ns => getText n ++ forestText ns

end

/-- Model of bs4's matching of a string `class_` argument against a
multi-valued class attribute: the string matches if it equals one of the
element's classes, or the whole class attribute joined by spaces. -/
def classMatch (q : String) (cls : List String) : Bool :=
  cls.contains q || String.intercalate " " cls == q

/-- Predicate for `find`/`findAll` with a tag name and a `class_` string. -/
def isTagClass (tag q : String) : HNode → Bool
  | .elem t _ cls _ => t == tag && classMatch q cls
  | .text _ => false

/-- Predicate for `find` with only a tag name (as in `name.find('a')`). -/
def isTag (tag : String) : HNode → Bool
  | .elem t _ _ _ => t == tag
  | .text _ => false

/-- Predicate for `find(id=...)`. -/
def hasId (i : String) : HNode → Bool
  | .elem _ j _ _ => j == some i
  | .text _ => false

/-- Model of `soup.find(id=...)` (`client.py:72`): the first element in
document order, in the whole document, with the given id. -/
def findById (doc : HNode) (i : String) : Option HNode :=
  (forestList [doc]).find? (hasId i)

/-- Model of Python `str.strip()`: remove leading and trailing whitespace. -/
def pythonStrip (s : String) : String :=
  String.mk (((s.data.dropWhile Char.isWhitespace).reverse.dropWhile
    Char.isWhitespace).reverse)

/-- Model of Python `float()` on the simple numeric strings this page
contains: optional surrounding whitespace, optional sign, decimal digits
with an optional fractional part; anything else (and the exponent/inf/nan
forms, which cannot arise from this page) is a parse failure.  The value is
returned exactly, as a rational. -/
def parseUnsignedFloat (cs : List Char) : Option ℚ :=
  let ip := cs.takeWhile Char.isDigit
  let r1 := cs.dropWhile Char.isDigit
  match r1 with
  | [] => if ip.isEmpty then none else some (digitsVal ip : ℚ)
  | '.' :: fr =>
    let fp := fr.takeWhile Char.isDigit
    let r2 := fr.dropWhile Char.isDigit
    if r2.isEmpty && !(ip.isEmpty && fp.isEmpty) then
      some ((digitsVal ip : ℚ) + (digitsVal fp : ℚ) / ((10 : ℚ) ^ fp.length))
    else none
  | _ => none

/-- Python `float(s)`, with `None` standing for a raised `ValueError`. -/
def pyFloat (s : String) : Option ℚ :=
  match (pythonStrip s).data with
  | '+' :: rest => parseUnsignedFloat rest
  | '-' :: rest => (parseUnsignedFloat rest).map Neg.neg
  | cs => parseUnsignedFloat cs

/-- The exception outcomes `get_workout_from_date` can surface: an HTTP error
from `raise_for_status`, an `AttributeError` from calling a method on `None`
(missing `logList1` container, missing `fixedLogBar` div, or missing link in
the name block), the failed `assert len(blocks) == 4`, and a `ValueError`
from `float()`. -/
inductive PyErr where
  | httpStatusError
  | attributeError
  | assertionError
  | valueError
deriving DecidableEq, Repr

/-- The `assert len(blocks) == 4` and the destructuring that follows it
(`client.py:77-82`): with exactly four blocks they are (picture, name,
one-rep-max, logs); the name is the trimmed text of the first link in the
name block (`None` → `AttributeError`), the one-rep-max is `float` of the
one-rep-max block's text (`ValueError` on failure), and the logs text is fed
to `parse_to_lifting_log`.  Any other number of blocks is the failed assert. -/
def processBlocks (blocks : List HNode) : Except PyErr ExerciseBlock :=
  match blocks with
  | [_picture, name, onerepmax, liftinglogs] =>
    match (nodeList name).find? (isTag "a") with
    | none => .error .attributeError
    | some a =>
      match pyFloat (getText onerepmax) with
      | none => .error .valueError
      | some orm =>
        .ok { exercise_name := pythonStrip (getText a),
              one_rep_max := orm,
              lifting_logs := parse_to_lifting_log (getText liftinglogs) }
  | _ => .error .assertionError

/-- Model of the loop body of `get_workout_from_date` (`client.py:76-82`) for
one exercise block: find the `fixedLogBar` div (`None` → `AttributeError`),
collect its `fixedLogBarBlock align-top` divs, and hand them to
`processBlocks`. -/
def processExercise (exercise : HNode) : Except PyErr ExerciseBlock :=
  match (nodeList exercise).find? (isTagClass "div" "fixedLogBar") with
  | none => .error .attributeError
  | some bar =>
    processBlocks ((nodeList bar).filter (isTagClass "div" "fixedLogBarBlock align-top"))

/-- The `for exercise in exercises` loop (`client.py:75-82`): records are
appended in document order, and the first raised exception aborts the whole
extraction with no result. -/
def processExercises : List HNode → Except PyErr (List ExerciseBlock)
  | [] => .ok []
  | e :: es =>
    match processExercise e with
    | .error err => .error err
    | .ok b =>
      match processExercises es with
      | .error err => .error err
      | .ok bs => .ok (b :: bs)

/-- The HTTP response the extractor consumes: a status code and the response
body already parsed as an HTML tree.  The request itself (one GET with
`xid`/`dd` query parameters) is external input to the model. -/
structure HTTPResponse where
  status : Nat
  body : HNode

/-- Model of `JEFITClient.get_workout_from_date` (`client.py:66-83`) from the
response onward: `raise_for_status()` raises unless the status is a 2xx
success; then the `logList1` container is looked up (`None` →
`AttributeError` on `.findAll`), its `exercise-block` divs are collected, and
each is processed in document order. -/
def get_workout_from_date (response : HTTPResponse) : Except PyErr (List ExerciseBlock) :=
  if response.status < 200 || 300 ≤ response.status then .error .httpStatusError
  else
    match findById response.body "logList1" with
    | none => .error .attributeError
    | some workout =>
      processExercises ((nodeList workout).filter (isTagClass "div" "exercise-block"))

/-- The four sub-blocks of the Bench Press fixture from the specification:
`("<img>", "<a>Bench Press</a>", "225", "Set 1 : 225x5 Set 2 : 225x5")`. -/
def benchSubBlocks : List HNode :=
  [ .elem "div" none ["fixedLogBarBlock", "align-top"] [.elem "img" none [] []],
    .elem "div" none ["fixedLogBarBlock", "align-top"]
      [.elem "a" none [] [.text "Bench Press"]],
    .elem "div" none ["fixedLogBarBlock", "align-top"] [.text "225"],
    .elem "div" none ["fixedLogBarBlock", "align-top"]
      [.text "Set 1 : 225x5 Set 2 : 225x5"] ]

/-- The single exercise block of the Bench Press fixture. -/
def benchExercise : HNode :=
  .elem "div" none ["exercise-block"]
    [.elem "div" none ["fixedLogBar"] benchSubBlocks]

/-- The Bench Press fixture page: a `logList1` container holding exactly one
exercise block whose four sub-blocks are picture, name, one-rep-max, logs. -/
def benchFixture : HNode :=
  .elem "html" none [] [.elem "div" (some "logList1") [] [benchExercise]]

/-- A fixture exercise block with only three sub-blocks (picture, name,
one-rep-max) instead of four. -/
def threeBlockExercise : HNode :=
  .elem "div" none ["exercise-block"]
    [.elem "div" none ["fixedLogBar"] (benchSubBlocks.take 3)]

/-- A fixture page whose single exercise block has only three sub-blocks. -/
def threeBlockFixture : HNode :=
  .elem "html" none [] [.elem "div" (some "logList1") [] [threeBlockExercise]]

/-- A fixture exercise block whose name sub-block holds plain text with no
link element. -/
def noLinkExercise : HNode :=
  .elem "div" none ["exercise-block"]
    [.elem "div" none ["fixedLogBar"]
      [ .elem "div" none ["fixedLogBarBlock", "align-top"] [.elem "img" none [] []],
        .elem "div" none ["fixedLogBarBlock", "align-top"] [.text "Bench Press"],
        .elem "div" none ["fixedLogBarBlock", "align-top"] [.text "225"],
        .elem "div" none ["fixedLogBarBlock", "align-top"]
          [.text "Set 1 : 225x5 Set 2 : 225x5"] ]]

/-- A fixture page whose single exercise block has a linkless name block. -/
def noLinkFixture : HNode :=
  .elem "html" none [] [.elem "div" (some "logList1") [] [noLinkExercise]]

/-- A page with no `logList1` container at all. -/
def emptyPage : HNode := .elem "html" none [] [.elem "body" none [] [.text "nothing"]]

/-- Does the list avoid starting with an ASCII digit?  A match of the final
greedy `(\d+)` group ends exactly where such a remainder starts. -/
def headNotDigit : List Char → Bool
  | [] => true
  | c :: _ => !c.isDigit

/-- The characters of a well-formed token `Set <n> : <w>x<r>` with the three
integers rendered in decimal. -/
def renderToken (n w r : Nat) : List Char :=
  setLit ++ natChars n ++ sepLit ++ natChars w ++ 'x' :: natChars r

/-- The characters of a sequence of well-formed tokens, each followed by its
own (possibly empty) separator string. -/
def renderTokens : List ((Nat × Nat × Nat) × List Char) → List Char
  | [] => []
  | (t, sep) :: ts => renderToken t.1 t.2.1 t.2.2 ++ sep ++ renderTokens ts

/-! ### Decimal rendering round-trips through the digit-string value -/

theorem digitsVal_append_digit (xs : List Char) (c : Char) :
    digitsVal (xs ++ [c]) = 10 * digitsVal xs + (c.toNat - 48) := by
  simp [digitsVal, List.foldl_append]

theorem digitChar10_isDigit {d : Nat} (h : d < 10) : (digitChar10 d).isDigit = true := by
  interval_cases d <;> decide

theorem digitChar10_val {d : Nat} (h : d < 10) : (digitChar10 d).toNat - 48 = d := by
  interval_cases d <;> decide

theorem natChars_not_empty (n : Nat) : (natChars n).isEmpty = false := by
  unfold natChars
  split <;> simp

theorem natChars_all_digit (n : Nat) : (natChars n).all Char.isDigit = true := by
  induction n using Nat.strong_induction_on with
  | _ n ih =>
    unfold natChars
    split
    · next h => simp [digitChar10_isDigit h]
    · next h =>
      rw [List.all_append]
      have h10 : 10 ≤ n := by omega
      rw [ih (n / 10) (Nat.div_lt_self (by omega) (by omega))]
      simp [digitChar10_isDigit (Nat.mod_lt n (by omega))]

theorem digitsVal_natChars (n : Nat) : digitsVal (natChars n) = n := by
  induction n using Nat.strong_induction_on with
  | _ n ih =>
    unfold natChars
    split
    · next h =>
      show digitsVal [digitChar10 n] = n
      simp [digitsVal, digitChar10_val h]
    · next h =>
      rw [digitsVal_append_digit, ih (n / 10) (Nat.div_lt_self (by omega) (by omega)),
        digitChar10_val (Nat.mod_lt n (by omega))]
      omega

/-! ### Literal stripping and digit-run lemmas -/

theorem dropLit_self_append (p cs : List Char) : dropLit p (p ++ cs) = some cs := by
  induction p with
  | nil => rfl
  | cons a ps ih => simp [dropLit, ih]

theorem dropLit_length : ∀ {p cs r : List Char}, dropLit p cs = some r →
    r.length + p.length = cs.length := by
  intro p
  induction p with
  | nil =>
    intro cs r h
    simp [dropLit] at h
    simp [h]
  | cons a ps ih =>
    intro cs r h
    match cs with
    | [] => simp [dropLit] at h
    | c :: cs' =>
      unfold dropLit at h
      split at h
      · have := ih h
        simp only [List.length_cons]
        omega
      · simp at h

theorem takeWhile_digits_append {ds rest : List Char} (hds : ds.all Char.isDigit = true)
    (hrest : headNotDigit rest = true) :
    (ds ++ rest).takeWhile Char.isDigit = ds ∧
      (ds ++ rest).dropWhile Char.isDigit = rest := by
  induction ds with
  | nil =>
    simp only [List.nil_append]
    cases rest with
    | nil => simp
    | cons c cs =>
      simp only [headNotDigit, Bool.not_eq_true'] at hrest
      simp [List.takeWhile_cons, List.dropWhile_cons, hrest]
  | cons d ds ih =>
    rw [List.all_cons, Bool.and_eq_true] at hds
    obtain ⟨h1, h2⟩ := ih hds.2
    simp [List.takeWhile_cons, List.dropWhile_cons, hds.1, h1, h2]

/-! ### A successful match consumes at least one character -/

theorem matchAt_length : ∀ {cs : List Char} {t : Nat × Nat × Nat} {rest : List Char},
    matchAt cs = some (t, rest) → rest.length < cs.length := by
  intro cs t rest h
  unfold matchAt at h
  split at h
  · simp at h
  · next r1 h1 =>
    have l1 : r1.length + setLit.length = cs.length := dropLit_length h1
    split at h
    · simp at h
    · split at h
      · simp at h
      · next r3 h3 =>
        have l2 : (r1.dropWhile Char.isDigit).length ≤ r1.length :=
          (List.dropWhile_sublist Char.isDigit).length_le
        have l3 : r3.length + sepLit.length = (r1.dropWhile Char.isDigit).length :=
          dropLit_length h3
        split at h
        · simp at h
        · split at h
          · next r5 h5 =>
            have l4 : ('x' :: r5).length ≤ r3.length := by
              rw [← h5]
              exact (List.dropWhile_sublist Char.isDigit).length_le
            have l5 : (r5.dropWhile Char.isDigit).length ≤ r5.length :=
              (List.dropWhile_sublist Char.isDigit).length_le
            split at h
            · simp at h
            · simp only [Option.some.injEq, Prod.mk.injEq] at h
              rw [← h.2]
              simp only [setLit, sepLit, List.length_cons] at l1 l3 l4
              omega
          · simp at h

/-! ### Fuel at least the input length computes the full match list -/

theorem findAllFuel_eq_of_le : ∀ {f : Nat} {cs : List Char}, cs.length ≤ f →
    findAllFuel f cs = findAllMatches cs := by
  intro f
  induction f using Nat.strong_induction_on with
  | _ f ih =>
    intro cs hf
    match f, cs with
    | 0, [] => rfl
    | 0, c :: tl => simp at hf
    | f' + 1, [] => rfl
    | f' + 1, c :: tl =>
      show findAllFuel (f' + 1) (c :: tl) = findAllFuel (tl.length + 1) (c :: tl)
      simp only [List.length_cons] at hf
      cases hm : matchAt (c :: tl) with
      | none =>
        have e1 : findAllFuel (f' + 1) (c :: tl) = findAllFuel f' tl := by
          rw [findAllFuel, hm]
        have e2 : findAllFuel (tl.length + 1) (c :: tl) = findAllFuel tl.length tl := by
          rw [findAllFuel, hm]
        rw [e1, e2, ih f' (by omega) (by omega : tl.length ≤ f'),
          ih tl.length (by omega) (Nat.le_refl _)]
      | some p =>
        obtain ⟨t, rest⟩ := p
        have hr : rest.length < tl.length + 1 := matchAt_length hm
        have e1 : findAllFuel (f' + 1) (c :: tl) = t :: findAllFuel f' rest := by
          rw [findAllFuel, hm]
        have e2 : findAllFuel (tl.length + 1) (c :: tl) =
            t :: findAllFuel tl.length rest := by
          rw [findAllFuel, hm]
        rw [e1, e2, ih f' (by omega) (by omega : rest.length ≤ f'),
          ih tl.length (by omega) (by omega : rest.length ≤ tl.length)]

/-! ### Scan step lemmas -/

theorem findAllMatches_cons_match {c : Char} {cs : List Char} {t : Nat × Nat × Nat}
    {rest : List Char} (h : matchAt (c :: cs) = some (t, rest)) :
    findAllMatches (c :: cs) = t :: findAllMatches rest := by
  have e1 : findAllFuel (cs.length + 1) (c :: cs) = t :: findAllFuel cs.length rest := by
    rw [findAllFuel, h]
  have := matchAt_length h
  simp only [List.length_cons] at this
  show findAllFuel (cs.length + 1) (c :: cs) = t :: findAllMatches rest
  rw [e1, findAllFuel_eq_of_le (by omega : rest.length ≤ cs.length)]

theorem findAllMatches_cons_nomatch {c : Char} {cs : List Char}
    (h : matchAt (c :: cs) = none) :
    findAllMatches (c :: cs) = findAllMatches cs := by
  have e1 : findAllFuel (cs.length + 1) (c :: cs) = findAllFuel cs.length cs := by
    rw [findAllFuel, h]
  show findAllFuel (cs.length + 1) (c :: cs) = findAllMatches cs
  rw [e1]
  exact findAllFuel_eq_of_le (Nat.le_refl _)

theorem findAllMatches_eq_cons {cs : List Char} {t : Nat × Nat × Nat} {rest : List Char}
    (h : matchAt cs = some (t, rest)) :
    findAllMatches cs = t :: findAllMatches rest := by
  cases cs with
  | nil => simp [matchAt, setLit, dropLit] at h
  | cons c cs' => exact findAllMatches_cons_match h

/-! ### Matching a rendered token -/

theorem matchAt_renderToken (n w r : Nat) {rest : List Char}
    (hrest : headNotDigit rest = true) :
    matchAt (renderToken n w r ++ rest) = some ((n, w, r), rest) := by
  have hsep : headNotDigit (sepLit ++ (natChars w ++ ('x' :: (natChars r ++ rest)))) = true := by
    simp [sepLit, headNotDigit]
  have hx : headNotDigit ('x' :: (natChars r ++ rest)) = true := by
    simp [headNotDigit]
  obtain ⟨tw1, dw1⟩ := takeWhile_digits_append (natChars_all_digit n) hsep
  obtain ⟨tw2, dw2⟩ := takeWhile_digits_append (natChars_all_digit w) hx
  obtain ⟨tw3, dw3⟩ := takeWhile_digits_append (natChars_all_digit r) hrest
  have harr : renderToken n w r ++ rest =
      setLit ++ (natChars n ++ (sepLit ++ (natChars w ++ ('x' :: (natChars r ++ rest))))) := by
    simp [renderToken, List.append_assoc]
  rw [harr]
  simp only [matchAt, dropLit_self_append, tw1, dw1, tw2, dw2, tw3, dw3,
    natChars_not_empty, Bool.false_eq_true, if_false, digitsVal_natChars]

theorem matchAt_cons_not_S {c : Char} (cs : List Char) (h : ('S' = c) = False) :
    matchAt (c :: cs) = none := by
  have hd : dropLit setLit (c :: cs) = none := by
    simp only [setLit, dropLit, h, if_false]
  unfold matchAt
  rw [hd]

theorem findAllMatches_spaces (sep cs : List Char) (hsep : sep.all (· == ' ') = true) :
    findAllMatches (sep ++ cs) = findAllMatches cs := by
  induction sep with
  | nil => rfl
  | cons c sep' ih =>
    rw [List.all_cons, Bool.and_eq_true] at hsep
    have hc : c = ' ' := by simpa using hsep.1
    subst hc
    rw [List.cons_append, findAllMatches_cons_nomatch (matchAt_cons_not_S _ (by decide)),
      ih hsep.2]

theorem headNotDigit_renderTokens (ts : List ((Nat × Nat × Nat) × List Char)) :
    headNotDigit (renderTokens ts) = true := by
  cases ts with
  | nil => rfl
  | cons p ts' =>
    obtain ⟨⟨n, w, r⟩, sep⟩ := p
    rfl

theorem findAllMatches_renderTokens : ∀ ts : List ((Nat × Nat × Nat) × List Char),
    (∀ p ∈ ts, p.2.all (· == ' ') = true) →
    findAllMatches (renderTokens ts) = ts.map (fun p => p.1) := by
  intro ts
  induction ts with
  | nil => intro _; rfl
  | cons p ts ih =>
    intro hsep
    obtain ⟨⟨n, w, r⟩, sep⟩ := p
    have hsep0 : sep.all (· == ' ') = true := hsep _ (List.mem_cons_self _ _)
    have hhead : headNotDigit (sep ++ renderTokens ts) = true := by
      cases sep with
      | nil =>
        simp only [List.nil_append]
        exact headNotDigit_renderTokens ts
      | cons c rest' =>
        rw [List.all_cons, Bool.and_eq_true] at hsep0
        have hc : c = ' ' := by simpa using hsep0.1
        subst hc
        rfl
    have hr : renderTokens (((n, w, r), sep) :: ts) =
        renderToken n w r ++ (sep ++ renderTokens ts) := by
      simp [renderTokens, List.append_assoc]
    rw [hr, findAllMatches_eq_cons (matchAt_renderToken n w r hhead),
      findAllMatches_spaces sep _ hsep0,
      ih (fun q hq => hsep q (List.mem_cons_of_mem _ hq))]
    rfl

/-! ### Extractor unfolding lemmas -/

theorem processBlocks_wrong_count {blocks : List HNode} (h : blocks.length ≠ 4) :
    processBlocks blocks = .error .assertionError := by
  match blocks with
  | [] => rfl
  | [_] => rfl
  | [_, _] => rfl
  | [_, _, _] => rfl
  | [_, _, _, _] => simp at h
  | _ :: _ :: _ :: _ :: _ :: _ => rfl

theorem processExercise_bar {ex bar : HNode}
    (h : (nodeList ex).find? (isTagClass "div" "fixedLogBar") = some bar) :
    processExercise ex =
      processBlocks ((nodeList bar).filter
        (isTagClass "div" "fixedLogBarBlock align-top")) := by
  unfold processExercise
  rw [h]

theorem processBlocks_ok {picture nameBlock orm lg a : HNode} {v : ℚ}
    (ha : (nodeList nameBlock).find? (isTag "a") = some a)
    (hv : pyFloat (getText orm) = some v) :
    processBlocks [picture, nameBlock, orm, lg] =
      .ok ⟨pythonStrip (getText a), v, parse_to_lifting_log (getText lg)⟩ := by
  have hred : processBlocks [picture, nameBlock, orm, lg] =
      match (nodeList nameBlock).find? (isTag "a") with
      | none => .error .attributeError
      | some a =>
        match pyFloat (getText orm) with
        | none => .error .valueError
        | some v =>
          .ok ⟨pythonStrip (getText a), v, parse_to_lifting_log (getText lg)⟩ := rfl
  rw [hred, ha, hv]

theorem processBlocks_no_link {picture nameBlock orm lg : HNode}
    (ha : (nodeList nameBlock).find? (isTag "a") = none) :
    processBlocks [picture, nameBlock, orm, lg] = .error .attributeError := by
  have hred : processBlocks [picture, nameBlock, orm, lg] =
      match (nodeList nameBlock).find? (isTag "a") with
      | none => .error .attributeError
      | some a =>
        match pyFloat (getText orm) with
        | none => .error .valueError
        | some v =>
          .ok ⟨pythonStrip (getText a), v, parse_to_lifting_log (getText lg)⟩ := rfl
  rw [hred, ha]

theorem processExercises_firstError {pre : List HNode} {ex : HNode} {post : List HNode}
    {err : PyErr}
    (hpre : ∀ p ∈ pre, ∃ b, processExercise p = .ok b)
    (hex : processExercise ex = .error err) :
    processExercises (pre ++ ex :: post) = .error err := by
  induction pre with
  | nil =>
    simp only [List.nil_append]
    unfold processExercises
    rw [hex]
  | cons q pre' ih =>
    obtain ⟨b, hb⟩ := hpre q (List.mem_cons_self _ _)
    simp only [List.cons_append]
    unfold processExercises
    rw [hb, ih (fun p hp => hpre p (List.mem_cons_of_mem _ hp))]

theorem processExercises_all_ok {exs : List HNode} {bs : List ExerciseBlock}
    (h : List.Forall₂ (fun ex b => processExercise ex = .ok b) exs bs) :
    processExercises exs = .ok bs := by
  induction h with
  | nil => rfl
  | cons hab _htail ih =>
    unfold processExercises
    rw [hab, ih]

theorem get_workout_status_error {resp : HTTPResponse}
    (h : resp.status < 200 ∨ 300 ≤ resp.status) :
    get_workout_from_date resp = .error .httpStatusError := by
  unfold get_workout_from_date
  split
  · rfl
  · next hcond =>
    exfalso
    simp at hcond
    omega

theorem get_workout_2xx {resp : HTTPResponse} (h1 : 200 ≤ resp.status)
    (h2 : resp.status < 300) :
    get_workout_from_date resp =
      match findById resp.body "logList1" with
      | none => .error .attributeError
      | some workout =>
        processExercises ((nodeList workout).filter
          (isTagClass "div" "exercise-block")) := by
  unfold get_workout_from_date
  split
  · next hcond =>
    exfalso
    simp at hcond
    omega
  · rfl

theorem get_workout_no_loglist {resp : HTTPResponse} (h1 : 200 ≤ resp.status)
    (h2 : resp.status < 300) (h : findById resp.body "logList1" = none) :
    get_workout_from_date resp = .error .attributeError := by
  rw [get_workout_2xx h1 h2, h]

theorem get_workout_some_loglist {resp : HTTPResponse} {workout : HNode}
    (h1 : 200 ≤ resp.status) (h2 : resp.status < 300)
    (h : findById resp.body "logList1" = some workout) :
    get_workout_from_date resp =
      processExercises ((nodeList workout).filter
        (isTagClass "div" "exercise-block")) := by
  rw [get_workout_2xx h1 h2, h]

theorem findAllMatches_nil_of_no_match : ∀ {cs : List Char},
    (∀ i, i ≤ cs.length → matchAt (cs.drop i) = none) → findAllMatches cs = [] := by
  intro cs
  induction cs with
  | nil => intro _; rfl
  | cons c tl ih =>
    intro h
    have h0 : matchAt (c :: tl) = none := h 0 (by simp)
    rw [findAllMatches_cons_nomatch h0]
    refine ih (fun i hi => ?_)
    have := h (i + 1) (by simp only [List.length_cons]; omega)
    simpa [List.drop_succ_cons] using this

/-! ## Claim theorems -/

/-- C1: for every input consisting of k well-formed tokens
`Set <n> : <w>x<r>` (each followed by an optional run of spaces),
`parse_to_lifting_log` returns exactly k `LiftingLog` records, in the order
the tokens appear in the input (not sorted by set number), with
`set_number`, `weight` and `reps` equal to the three captured integers of
the corresponding token. -/
theorem wellformed_tokens_parse_inorder
    (ts : List ((Nat × Nat × Nat) × List Char))
    (hsep : ∀ p ∈ ts, p.2.all (· == ' ') = true) :
    parse_to_lifting_log (String.mk (renderTokens ts)) =
      ts.map (fun p => ⟨(p.1.1 : Int), (p.1.2.1 : ℚ), (p.1.2.2 : Int)⟩) := by
  unfold parse_to_lifting_log
  rw [show (String.mk (renderTokens ts)).data = renderTokens ts from rfl,
    findAllMatches_renderTokens ts hsep, List.map_map]
  rfl

/-- Witness for C1: two tokens with descending set numbers come back in
input order, not sorted. -/
theorem wellformed_tokens_parse_inorder_witness :
    parse_to_lifting_log
        (String.mk (renderTokens [((2, 70, 5), [' ']), ((1, 71, 6), [])])) =
      [⟨2, 70, 5⟩, ⟨1, 71, 6⟩] :=
  wellformed_tokens_parse_inorder [((2, 70, 5), [' ']), ((1, 71, 6), [])] (by decide)

/-- C2: if the page's `logList1` container holds an exercise block whose
`fixedLogBar` contains a number of `fixedLogBarBlock align-top` divs other
than four, while every earlier exercise block parses correctly, extraction
fails with the failed assert (the structural-assumption violation) and the
whole extraction aborts: no records are returned, even for the earlier
blocks that would have parsed correctly. -/
theorem assert_violation_aborts_extraction
    (resp : HTTPResponse) (workout ex bar : HNode) (pre post : List HNode)
    (h1 : 200 ≤ resp.status) (h2 : resp.status < 300)
    (hw : findById resp.body "logList1" = some workout)
    (hsplit : (nodeList workout).filter (isTagClass "div" "exercise-block") =
      pre ++ ex :: post)
    (hpre : ∀ p ∈ pre, ∃ b, processExercise p = .ok b)
    (hbar : (nodeList ex).find? (isTagClass "div" "fixedLogBar") = some bar)
    (hcount : ((nodeList bar).filter
      (isTagClass "div" "fixedLogBarBlock align-top")).length ≠ 4) :
    get_workout_from_date resp = .error .assertionError ∧
      ∀ bs : List ExerciseBlock, get_workout_from_date resp ≠ .ok bs := by
  have he : get_workout_from_date resp = .error .assertionError := by
    rw [get_workout_some_loglist h1 h2 hw, hsplit]
    exact processExercises_firstError hpre
      ((processExercise_bar hbar).trans (processBlocks_wrong_count hcount))
  exact ⟨he, fun bs hc => by rw [he] at hc; cases hc⟩

/-- Witness for C2 at the three-sub-block fixture. -/
theorem assert_violation_aborts_extraction_witness :
    get_workout_from_date ⟨200, threeBlockFixture⟩ = .error .assertionError ∧
      ∀ bs : List ExerciseBlock,
        get_workout_from_date ⟨200, threeBlockFixture⟩ ≠ .ok bs :=
  assert_violation_aborts_extraction ⟨200, threeBlockFixture⟩
    (.elem "div" (some "logList1") [] [threeBlockExercise]) threeBlockExercise
    (.elem "div" none ["fixedLogBar"] (benchSubBlocks.take 3)) [] []
    (by decide) (by decide) rfl rfl (by simp) rfl (by decide)

/-- C3: on a page whose `logList1` container's exercise blocks each carry
exactly four sub-blocks in order (picture, name, one-rep-max, logs-text),
the extractor returns one record per exercise block in document order,
whose name is the stripped text of the first link inside the name block,
whose one-rep-max is the numeric value of the one-rep-max block's full text,
and whose lifting logs are the Log-Line Parser's output on the logs block's
full text; in particular the Bench Press fixture yields exactly one record
with name `Bench Press`, one-rep-max `225.0`, and sets (1,225,5), (2,225,5)
in that order. -/
theorem extraction_wellformed_page :
    (∀ (ex bar picture nameBlock orm lg a : HNode) (v : ℚ),
      (nodeList ex).find? (isTagClass "div" "fixedLogBar") = some bar →
      (nodeList bar).filter (isTagClass "div" "fixedLogBarBlock align-top") =
        [picture, nameBlock, orm, lg] →
      (nodeList nameBlock).find? (isTag "a") = some a →
      pyFloat (getText orm) = some v →
      processExercise ex =
        .ok ⟨pythonStrip (getText a), v, parse_to_lifting_log (getText lg)⟩)
    ∧ (∀ (resp : HTTPResponse) (workout : HNode) (bs : List ExerciseBlock),
      200 ≤ resp.status → resp.status < 300 →
      findById resp.body "logList1" = some workout →
      List.Forall₂ (fun ex b => processExercise ex = .ok b)
        ((nodeList workout).filter (isTagClass "div" "exercise-block")) bs →
      get_workout_from_date resp = .ok bs)
    ∧ get_workout_from_date ⟨200, benchFixture⟩ =
        .ok [⟨"Bench Press", 225, [⟨1, 225, 5⟩, ⟨2, 225, 5⟩]⟩] := by
  refine ⟨?_, ?_, by rfl⟩
  · intro ex bar picture nameBlock orm lg a v hbar hblocks ha hv
    rw [processExercise_bar hbar, hblocks]
    exact processBlocks_ok ha hv
  · intro resp workout bs h1 h2 hw hall
    rw [get_workout_some_loglist h1 h2 hw]
    exact processExercises_all_ok hall

/-- Witness for C3 at the Bench Press exercise block. -/
theorem extraction_wellformed_page_witness :
    processExercise benchExercise =
      .ok ⟨"Bench Press", 225, [⟨1, 225, 5⟩, ⟨2, 225, 5⟩]⟩ :=
  extraction_wellformed_page.1 benchExercise
    (.elem "div" none ["fixedLogBar"] benchSubBlocks)
    (.elem "div" none ["fixedLogBarBlock", "align-top"] [.elem "img" none [] []])
    (.elem "div" none ["fixedLogBarBlock", "align-top"]
      [.elem "a" none [] [.text "Bench Press"]])
    (.elem "div" none ["fixedLogBarBlock", "align-top"] [.text "225"])
    (.elem "div" none ["fixedLogBarBlock", "align-top"]
      [.text "Set 1 : 225x5 Set 2 : 225x5"])
    (.elem "a" none [] [.text "Bench Press"]) 225 rfl rfl rfl rfl

/-- C4: a client- or server-error response status (4xx or 5xx) makes
`get_workout_from_date` fail immediately with the HTTP error condition,
propagated to the caller with no retry and no records. -/
theorem http_error_propagates (resp : HTTPResponse)
    (h4 : 400 ≤ resp.status) (h5 : resp.status ≤ 599) :
    get_workout_from_date resp = .error .httpStatusError ∧
      ∀ bs : List ExerciseBlock, get_workout_from_date resp ≠ .ok bs := by
  have he : get_workout_from_date resp = .error .httpStatusError :=
    get_workout_status_error (Or.inr (by omega))
  exact ⟨he, fun bs hc => by rw [he] at hc; cases hc⟩

/-- Witness for C4: a 404 response on the Bench Press fixture. -/
theorem http_error_propagates_witness :
    get_workout_from_date ⟨404, benchFixture⟩ = .error .httpStatusError ∧
      ∀ bs : List ExerciseBlock,
        get_workout_from_date ⟨404, benchFixture⟩ ≠ .ok bs :=
  http_error_propagates ⟨404, benchFixture⟩ (by decide) (by decide)

/-- C5: an input in which the token pattern matches at no position yields
the empty list, not an error; in particular the empty string,
`no matches here`, and malformed variants (wrong separator, extra
whitespace, missing colon, decimal weight) contribute no record. -/
theorem no_match_yields_empty :
    (∀ s : String, (∀ i, i ≤ s.data.length → matchAt (s.data.drop i) = none) →
      parse_to_lifting_log s = [])
    ∧ parse_to_lifting_log "" = []
    ∧ parse_to_lifting_log "no matches here" = []
    ∧ parse_to_lifting_log "Set 1 - 70x5" = []
    ∧ parse_to_lifting_log "Set  1 : 70x5" = []
    ∧ parse_to_lifting_log "Set 1 70x5" = []
    ∧ parse_to_lifting_log "Set 1 : 70.5x5" = [] := by
  refine ⟨?_, by decide, by decide, by decide, by decide, by decide, by decide⟩
  intro s h
  unfold parse_to_lifting_log
  rw [findAllMatches_nil_of_no_match h]
  rfl

/-- Witness for C5 at the input `no matches here`. -/
theorem no_match_yields_empty_witness :
    parse_to_lifting_log "no matches here" = [] :=
  no_match_yields_empty.1 "no matches here" (by decide)

/-- C6 counterexample: on `Set 0 : 70x5` the parser returns a record with
`set_number = 0`, refuting the claimed bound `set_number ≥ 1`. -/
theorem set_number_bound_cex :
    ∃ r ∈ parse_to_lifting_log "Set 0 : 70x5",
      ¬(1 ≤ r.set_number ∧ 0 ≤ r.weight ∧ 0 ≤ r.reps) := by decide

/-- C6 (amended): every record `parse_to_lifting_log` returns has
`set_number ≥ 0`, `weight ≥ 0` and `reps ≥ 0` — the captures are digit
strings, hence nonnegative, but `set_number` may be `0`, so the lower bound
is 0, not 1. -/
theorem set_records_nonneg_fields (s : String) (r : LiftingLog)
    (hr : r ∈ parse_to_lifting_log s) :
    0 ≤ r.set_number ∧ 0 ≤ r.weight ∧ 0 ≤ r.reps := by
  unfold parse_to_lifting_log at hr
  obtain ⟨t, _ht, rfl⟩ := List.mem_map.1 hr
  exact ⟨Int.natCast_nonneg _, Nat.cast_nonneg _, Int.natCast_nonneg _⟩

/-- Witness for C6 (amended) at `Set 3 : 70x5`. -/
theorem set_records_nonneg_fields_witness :
    0 ≤ (LiftingLog.mk 3 70 5).set_number ∧
      0 ≤ (LiftingLog.mk 3 70 5).weight ∧ 0 ≤ (LiftingLog.mk 3 70 5).reps :=
  set_records_nonneg_fields "Set 3 : 70x5" ⟨3, 70, 5⟩ (by decide)

/-- C7: when the response page holds no `logList1` container,
`get_workout_from_date` does not return an empty sequence — it fails with
the null-reference failure (`AttributeError` from calling `findAll` on
`None`), the same observable outcome whether the cause is no data for the
date or an unexpectedly changed page structure. -/
theorem missing_loglist_null_failure (resp : HTTPResponse)
    (h1 : 200 ≤ resp.status) (h2 : resp.status < 300)
    (h : findById resp.body "logList1" = none) :
    get_workout_from_date resp = .error .attributeError ∧
      get_workout_from_date resp ≠ .ok [] := by
  have he := get_workout_no_loglist h1 h2 h
  exact ⟨he, fun hc => by rw [he] at hc; cases hc⟩

/-- Witness for C7 at a page with no `logList1`. -/
theorem missing_loglist_null_failure_witness :
    get_workout_from_date ⟨200, emptyPage⟩ = .error .attributeError ∧
      get_workout_from_date ⟨200, emptyPage⟩ ≠ .ok [] :=
  missing_loglist_null_failure ⟨200, emptyPage⟩ (by decide) (by decide) rfl

/-- C8: the Log-Line Parser is deterministic and side-effect free: it is a
pure function of its input string, so equal inputs give equal outputs on
repeated invocations and no observable state changes. -/
theorem parser_deterministic (s t : String) (h : s = t) :
    parse_to_lifting_log s = parse_to_lifting_log t := by rw [h]

/-- Witness for C8 at `Set 1 : 70x5` called twice. -/
theorem parser_deterministic_witness :
    parse_to_lifting_log "Set 1 : 70x5" = parse_to_lifting_log "Set 1 : 70x5" :=
  parser_deterministic "Set 1 : 70x5" "Set 1 : 70x5" rfl

/-- C9: the Log-Line Parser is total: on every input string it terminates
normally with a (possibly empty) list of records — the model is a total
function, with no partiality or error outcome in its type. -/
theorem parser_total (s : String) :
    ∃ rs : List LiftingLog, parse_to_lifting_log s = rs :=
  ⟨_, rfl⟩

/-- C10: an exercise block with exactly four sub-blocks whose name block
contains no link makes the extraction fail with the null-reference failure
(`AttributeError`, not the structural assert and not a record with an empty
name), and no records are returned. -/
theorem missing_name_link_null_failure
    (resp : HTTPResponse) (workout ex bar picture nameBlock orm lg : HNode)
    (pre post : List HNode)
    (h1 : 200 ≤ resp.status) (h2 : resp.status < 300)
    (hw : findById resp.body "logList1" = some workout)
    (hsplit : (nodeList workout).filter (isTagClass "div" "exercise-block") =
      pre ++ ex :: post)
    (hpre : ∀ p ∈ pre, ∃ b, processExercise p = .ok b)
    (hbar : (nodeList ex).find? (isTagClass "div" "fixedLogBar") = some bar)
    (hblocks : (nodeList bar).filter (isTagClass "div" "fixedLogBarBlock align-top") =
      [picture, nameBlock, orm, lg])
    (ha : (nodeList nameBlock).find? (isTag "a") = none) :
    get_workout_from_date resp = .error .attributeError ∧
      ∀ bs : List ExerciseBlock, get_workout_from_date resp ≠ .ok bs := by
  have he : get_workout_from_date resp = .error .attributeError := by
    rw [get_workout_some_loglist h1 h2 hw, hsplit]
    refine processExercises_firstError hpre ?_
    rw [processExercise_bar hbar, hblocks]
    exact processBlocks_no_link ha
  exact ⟨he, fun bs hc => by rw [he] at hc; cases hc⟩

/-- Witness for C10 at the linkless-name fixture. -/
theorem missing_name_link_null_failure_witness :
    get_workout_from_date ⟨200, noLinkFixture⟩ = .error .attributeError ∧
      ∀ bs : List ExerciseBlock,
        get_workout_from_date ⟨200, noLinkFixture⟩ ≠ .ok bs :=
  missing_name_link_null_failure ⟨200, noLinkFixture⟩
    (.elem "div" (some "logList1") [] [noLinkExercise]) noLinkExercise
    (.elem "div" none ["fixedLogBar"]
      [ .elem "div" none ["fixedLogBarBlock", "align-top"] [.elem "img" none [] []],
        .elem "div" none ["fixedLogBarBlock", "align-top"] [.text "Bench Press"],
        .elem "div" none ["fixedLogBarBlock", "align-top"] [.text "225"],
        .elem "div" none ["fixedLogBarBlock", "align-top"]
          [.text "Set 1 : 225x5 Set 2 : 225x5"] ])
    (.elem "div" none ["fixedLogBarBlock", "align-top"] [.elem "img" none [] []])
    (.elem "div" none ["fixedLogBarBlock", "align-top"] [.text "Bench Press"])
    (.elem "div" none ["fixedLogBarBlock", "align-top"] [.text "225"])
    (.elem "div" none ["fixedLogBarBlock", "align-top"]
      [.text "Set 1 : 225x5 Set 2 : 225x5"])
    [] [] (by decide) (by decide) rfl rfl (by simp) rfl rfl rfl
